import Mathlib

/-!
Verification development for the space-data-agent repository.

The source (src/index.ts) is an aggregation layer over NASA and Open-Notify
APIs.  We shallowly embed:

* the `asteroids` entrypoint handler (flattening the NEO feed, sorting by
  miss distance with the `(x || Infinity)` coercion, slicing the output);
* the `report` entrypoint handler (APOD + astronauts + ISS + optional NEO
  fan-out, where only the ISS fetch has a `.catch` that degrades to a
  placeholder);
* the Aggregator of the specification (sections 3 to 5), which is a design
  artifact with no direct implementation under src/ (the report handler is
  its original); its definitions are marked `Modelled from the spec:`.

Numbers that the code handles as JS floats (miss distances, diameters,
velocities) are modelled as rationals: the comparator in the sort only
matters through the sign of a difference, which agrees with the order on
rationals for every value in float range.  JS `Array.prototype.sort` is a
stable sort, and the comparator used by the code induces a total preorder
on records, so its output is modelled by stable insertion sort (the output
of any stable sort is uniquely determined by a total preorder).
-/

namespace SpaceData

/-! ### Data model of the asteroids entrypoint (src/index.ts lines 117-175) -/

/-- One entry of close_approach_data, with the numeric strings already
parsed (the code applies parseFloat to well-formed numeric strings). -/
structure CloseApproach where
  close_approach_date : String
  miss_distance_kilometers : ℚ
  relative_velocity_kph : ℚ
  deriving DecidableEq

/-- One near-earth object of the NEO feed, as consumed by the handler. -/
structure Neo where
  name : String
  id : String
  estimated_diameter_min : ℚ
  estimated_diameter_max : ℚ
  is_potentially_hazardous_asteroid : Bool
  close_approach_data : List CloseApproach
  deriving DecidableEq

/-- The parsed NEO feed: element_count plus the near_earth_objects map,
as a list of (date, objects) pairs in JS object insertion order. -/
structure NeoFeed where
  element_count : Nat
  near_earth_objects : List (String × List Neo)
  deriving DecidableEq

/-- The flattened record built by the handler for each NEO.  The fields
guarded by `approach ?` in the code are `Option`: they are null when
close_approach_data is empty. -/
structure Asteroid where
  name : String
  id : String
  diameter_km_min : ℚ
  diameter_km_max : ℚ
  isPotentiallyHazardous : Bool
  approachDate : Option String
  missDistance_km : Option ℚ
  relativeVelocity_kph : Option ℚ
  deriving DecidableEq

/-- The per-NEO record construction of the handler (lines 146-158):
`approach` is `close_approach_data[0]`. -/
def toAsteroid (neo : Neo) : Asteroid :=
  let approach := neo.close_approach_data.head?
  { name := neo.name
    id := neo.id
    diameter_km_min := neo.estimated_diameter_min
    diameter_km_max := neo.estimated_diameter_max
    isPotentiallyHazardous := neo.is_potentially_hazardous_asteroid
    approachDate := approach.map (fun a => a.close_approach_date)
    missDistance_km := approach.map (fun a => a.miss_distance_kilometers)
    relativeVelocity_kph := approach.map (fun a => a.relative_velocity_kph) }

/-- Flattening loop over Object.entries(data.near_earth_objects). -/
def flattenNeos (feed : NeoFeed) : List Asteroid :=
  feed.near_earth_objects.flatMap (fun p => p.2.map toAsteroid)

/-- The value of `(a.missDistance_km || Infinity)` in the comparator:
`inf` stands for Infinity.  Note that both `null` and `0` are falsy in JS,
so both coerce to Infinity. -/
inductive SortKey
  | fin (q : ℚ)
  | inf
  deriving DecidableEq

/-- Sort key of a record under the comparator of line 162. -/
def sortKey (a : Asteroid) : SortKey :=
  match a.missDistance_km with
  | none => SortKey.inf
  | some q => if q = 0 then SortKey.inf else SortKey.fin q

/-- Boolean order induced by the comparator `ka - kb` (a nonpositive
difference keeps `a` before `b`; `Infinity - Infinity` is NaN, which the
stable sort treats as a tie). -/
def keyLE : SortKey → SortKey → Bool
  | _, SortKey.inf => true
  | SortKey.inf, SortKey.fin _ => false
  | SortKey.fin a, SortKey.fin b => decide (a ≤ b)

/-- The preorder on records used by the sort on line 162. -/
def astBefore (a b : Asteroid) : Prop :=
  keyLE (sortKey a) (sortKey b) = true

instance : DecidableRel astBefore :=
  fun a b => inferInstanceAs (Decidable (keyLE (sortKey a) (sortKey b) = true))

instance : IsTotal Asteroid astBefore := by
  constructor
  intro a b
  unfold astBefore
  generalize sortKey a = k₁
  generalize sortKey b = k₂
  cases k₁ <;> cases k₂ <;> simp [keyLE, decide_eq_true_iff]
  exact le_total _ _

instance : IsTrans Asteroid astBefore := by
  constructor
  intro a b c
  unfold astBefore
  generalize sortKey a = k₁
  generalize sortKey b = k₂
  generalize sortKey c = k₃
  intro hab hbc
  cases k₁ <;> cases k₂ <;> cases k₃ <;>
    simp [keyLE, decide_eq_true_iff] at hab hbc ⊢
  exact le_trans hab hbc

/-- `asteroids.sort((a, b) => (a.missDistance_km || Infinity) - (b.missDistance_km || Infinity))`,
modelled as a stable sort by `astBefore`. -/
def asteroidsSort (l : List Asteroid) : List Asteroid :=
  l.insertionSort astBefore

/-- The output object of the asteroids handler (lines 164-173); dateRange
and fetchedAt echo the input and the clock and are omitted. -/
structure AsteroidsOutput where
  totalCount : Nat
  hazardousCount : Nat
  closestApproach : Option Asteroid
  asteroids : List Asteroid
  deriving DecidableEq

/-- The asteroids entrypoint handler on an already-fetched feed. -/
def asteroidsHandler (feed : NeoFeed) : AsteroidsOutput :=
  let asteroids := asteroidsSort (flattenNeos feed)
  { totalCount := feed.element_count
    hazardousCount := (asteroids.filter (fun a => a.isPotentiallyHazardous)).length
    closestApproach := asteroids.head?
    asteroids := asteroids.take 20 }

/-! ### Data model of the report entrypoint (src/index.ts lines 197-278) -/

structure ApodData where
  title : String
  explanation : String
  url : String
  media_type : String
  deriving DecidableEq

structure Person where
  name : String
  craft : String
  deriving DecidableEq

structure AstrosData where
  number : Nat
  people : List Person
  deriving DecidableEq

structure IssPosition where
  latitude : ℚ
  longitude : ℚ
  deriving DecidableEq

structure IssData where
  iss_position : IssPosition
  timestamp : Nat
  deriving DecidableEq

/-- One step of the byCraft grouping loop: push `n` onto the entry for
`craft`, creating the key (in insertion order) if absent. -/
def insertCraft : List (String × List String) → String → String → List (String × List String)
  | [], craft, n => [(craft, [n])]
  | (c, ns) :: rest, craft, n =>
      if c = craft then (c, ns ++ [n]) :: rest
      else (c, ns) :: insertCraft rest craft n

/-- The byCraft grouping loop of lines 225-229 (and 99-104). -/
def groupByCraft (people : List Person) : List (String × List String) :=
  people.foldl (fun m p => insertCraft m p.craft p.name) []

/-- `issLocation` in the report output: either coordinates or the string
placeholder (line 267-270). -/
inductive IssLocation
  | loc (latitude longitude : ℚ)
  | unavailable
  deriving DecidableEq

/-- One entry of the hazardousList built on lines 238-242. -/
structure HazardEntry where
  name : String
  diameter_km_max : ℚ
  approachDate : Option String
  deriving DecidableEq

/-- `asteroidSummary` of the report (lines 232-251). -/
structure AsteroidSummary where
  totalTracked : Nat
  hazardousObjects : Nat
  hazardousList : List HazardEntry
  deriving DecidableEq

/-- The hazardous-object collection loop of lines 234-245. -/
def hazardousEntries (feed : NeoFeed) : List HazardEntry :=
  feed.near_earth_objects.flatMap (fun p =>
    (p.2.filter (fun a => a.is_potentially_hazardous_asteroid)).map (fun a =>
      { name := a.name
        diameter_km_max := a.estimated_diameter_max
        approachDate := a.close_approach_data.head?.map
          (fun c => c.close_approach_date) }))

/-- The asteroid summary of lines 246-250. -/
def mkAsteroidSummary (feed : NeoFeed) : AsteroidSummary :=
  let hazardous := hazardousEntries feed
  { totalTracked := feed.element_count
    hazardousObjects := hazardous.length
    hazardousList := hazardous.take 5 }

/-- The report object built on lines 253-276 (fetchedAt, date and
dataSources depend on the clock or are constants and are omitted). -/
structure ReportOutput where
  apodTitle : String
  apodExplanation : String
  apodUrl : String
  apodMediaType : String
  humansInSpaceTotal : Nat
  byCraft : List (String × List String)
  issLocation : IssLocation
  nearEarthObjects : Option AsteroidSummary
  deriving DecidableEq

/-- The report entrypoint handler.  Each argument is the settled result of
one of the fetch promises built on lines 208-220.  The ISS promise carries
`.catch(() => null)` so its failure is mapped to `none`; the APOD,
astronauts and (when included) NEO promises are unprotected, so a rejection
of any of them rejects the whole `Promise.all` and the handler fails.
`neoR = none` models `includeAsteroids = false`. -/
def reportHandler (apodR : Except String ApodData) (astrosR : Except String AstrosData)
    (issR : Except String IssData) (neoR : Option (Except String NeoFeed)) :
    Except String ReportOutput := do
  let apod ← apodR
  let astros ← astrosR
  let iss : Option IssData :=
    match issR with
    | Except.ok v => some v
    | Except.error _ => none
  let neo : Option NeoFeed ←
    match neoR with
    | none => pure none
    | some r => do
        let f ← r
        pure (some f)
  pure
    { apodTitle := apod.title
      apodExplanation := apod.explanation.take 500 ++ "..."
      apodUrl := apod.url
      apodMediaType := apod.media_type
      humansInSpaceTotal := astros.number
      byCraft := groupByCraft astros.people
      issLocation :=
        match iss with
        | some d => IssLocation.loc d.iss_position.latitude d.iss_position.longitude
        | none => IssLocation.unavailable
      nearEarthObjects := neo.map mkAsteroidSummary }

/-! ### The Aggregator of the specification (sections 3 to 5)

The Aggregator (`run`, `FetchTask`, `TaskOutcome`, `AggregationResult`,
`ConfigError`) is a design artifact of the spec with no implementation
under src/; the report handler (lines 197-278) and fetchJSON (lines 24-37)
are its originals.  Every definition below is therefore modelled from the
wording of the spec. -/

/-- Modelled from the spec: the opaque "arbitrary parsed JSON" value of a
Success outcome (spec section 3); the aggregation never inspects it. -/
inductive JsonValue
  | null
  | bool (b : Bool)
  | num (q : ℚ)
  | str (s : String)
  deriving DecidableEq

/-- Modelled from the spec: the per-task error taxonomy of section 7. -/
inductive ErrorKind
  | NetworkError
  | TimeoutError
  | ParseError
  deriving DecidableEq

/-- Modelled from the spec: a FetchTask record (section 3).  `timeoutMs`
is an integer so that non-positive values can be rejected. -/
structure FetchTask where
  name : String
  resource : String
  timeoutMs : Int
  required : Bool
  deriving DecidableEq

/-- Modelled from the spec: the TaskOutcome sum type (section 3). -/
inductive TaskOutcome
  | Success (value : JsonValue)
  | Failure (kind : ErrorKind) (message : String)
  deriving DecidableEq

/-- Whether an outcome is a Failure. -/
def TaskOutcome.isFailure : TaskOutcome → Bool
  | TaskOutcome.Success _ => false
  | TaskOutcome.Failure _ _ => true

/-- Modelled from the spec: the AggregationResult (section 3): the outcome
mapping keyed by task name plus the derived hasFatalFailure flag. -/
structure AggregationResult where
  outcomes : List (String × TaskOutcome)
  hasFatalFailure : Bool
  deriving DecidableEq

/-- Modelled from the spec: the fatal ConfigError of section 7. -/
inductive RunError
  | ConfigError (message : String)
  deriving DecidableEq

/-- Modelled from the spec: the value or error a resolving call delivers
(fetcher capability contract, spec section 6). -/
inductive FetchResult
  | ok (value : JsonValue)
  | err (kind : ErrorKind) (message : String)
  deriving DecidableEq

/-- Modelled from the spec: what one upstream call does, as observed
through the fetcher capability: either it resolves after `durationMs`
with a value or a per-call error, or it never resolves.  The duration
abstracts real time; the per-call cancellation token of section 5 fires
at the deadline of the one call it is scoped to, so a behavior completes
exactly when its duration beats that deadline. -/
inductive FetchBehavior
  | resolves (durationMs : Nat) (result : FetchResult)
  | never
  deriving DecidableEq

/-- Modelled from the spec: a deterministic fetcher double, keyed by the
resource locator (section 6). -/
abbrev Fetcher := String → FetchBehavior

/-- Whether a behavior resolves before the deadline `timeoutMs`. -/
def resolvesWithin (b : FetchBehavior) (timeoutMs : Int) : Bool :=
  match b with
  | FetchBehavior.resolves d _ => decide ((d : Int) < timeoutMs)
  | FetchBehavior.never => false

/-- The TimeoutError message of spec section 4.1 step 3. -/
def timeoutMessage (timeoutMs : Int) : String :=
  "timed out after " ++ toString timeoutMs ++ "ms"

/-- Modelled from the spec: running one task (section 4.1 step 3): the
call is raced against a timeout token scoped to this call alone.  Only the
behavior of this task and its own deadline are consulted. -/
def runTask (fetcher : Fetcher) (t : FetchTask) : TaskOutcome :=
  match fetcher t.resource with
  | FetchBehavior.never => TaskOutcome.Failure ErrorKind.TimeoutError (timeoutMessage t.timeoutMs)
  | FetchBehavior.resolves d r =>
      if (d : Int) < t.timeoutMs then
        match r with
        | FetchResult.ok v => TaskOutcome.Success v
        | FetchResult.err k m => TaskOutcome.Failure k m
      else TaskOutcome.Failure ErrorKind.TimeoutError (timeoutMessage t.timeoutMs)

/-- Modelled from the spec: the input validation of section 4.1 step 1
(unique names, positive timeouts), returning the ConfigError message when
the task set is invalid. -/
def validateTasks (tasks : List FetchTask) : Option String :=
  if ¬ (tasks.map (fun t => t.name)).Nodup then some "duplicate task names"
  else if ¬ ∀ t ∈ tasks, 0 < t.timeoutMs then some "timeoutMs must be a positive integer"
  else none

/-- Modelled from the spec: launch every task and collect each settled
(task, outcome) pair, together with the log of resources actually handed
to the fetcher capability (one entry per call issued). -/
def runTasks (fetcher : Fetcher) : List FetchTask → List (FetchTask × TaskOutcome) × List String
  | [] => ([], [])
  | t :: rest =>
      let outcome := runTask fetcher t
      let settledRest := runTasks fetcher rest
      ((t, outcome) :: settledRest.1, t.resource :: settledRest.2)

/-- Modelled from the spec: hasFatalFailure as the logical OR over
required tasks of whether their outcome is a Failure (section 4.1 step 5). -/
def hasFatal (settled : List (FetchTask × TaskOutcome)) : Bool :=
  settled.any (fun p => p.1.required && p.2.isFailure)

/-- Modelled from the spec: the Aggregator contract `run` (section 4.1):
validate first (returning ConfigError with no calls issued), then run all
tasks, then assemble the AggregationResult.  The second component is the
log of resources handed to the fetcher. -/
def run (fetcher : Fetcher) (tasks : List FetchTask) :
    Except RunError AggregationResult × List String :=
  match validateTasks tasks with
  | some msg => (Except.error (RunError.ConfigError msg), [])
  | none =>
      let settled := runTasks fetcher tasks
      (Except.ok
        { outcomes := settled.1.map (fun p => (p.1.name, p.2))
          hasFatalFailure := hasFatal settled.1 },
       settled.2)

/-- The canonical outcome mapping run builds: each task keyed by its name
with the outcome of its own call. -/
def outcomesOf (fetcher : Fetcher) (tasks : List FetchTask) : List (String × TaskOutcome) :=
  tasks.map (fun t => (t.name, runTask fetcher t))

/-- The canonical hasFatalFailure value: the OR over required tasks of
whether their outcome is a Failure. -/
def fatalOf (fetcher : Fetcher) (tasks : List FetchTask) : Bool :=
  tasks.any (fun t => t.required && (runTask fetcher t).isFailure)

/-- Lookup of the outcome recorded for a task name (first entry wins,
matching insertion into a JS object with unique keys). -/
def findOutcome (n : String) : List (String × TaskOutcome) → Option TaskOutcome
  | [] => none
  | (m, o) :: rest => if m = n then some o else findOutcome n rest

/-- Modelled from the spec: the join point of section 5 observed in an
arbitrary completion order: `order` lists the task indices in the order
the tasks settle, and each task contributes its (name, outcome) entry when
it settles. -/
def settleInOrder (fetcher : Fetcher) (tasks : List FetchTask) (order : List Nat) :
    List (String × TaskOutcome) :=
  order.filterMap (fun i => tasks[i]?.map (fun t => (t.name, runTask fetcher t)))

/-! ### Concrete inputs used by the witnesses -/

/-- Record with an absent miss distance (no close-approach data). -/
def astMissing : Asteroid :=
  { name := "missing", id := "0", diameter_km_min := 1, diameter_km_max := 2
    isPotentiallyHazardous := false, approachDate := none
    missDistance_km := none, relativeVelocity_kph := none }

/-- Record whose miss distance is present but equal to 0. -/
def astZero : Asteroid :=
  { astMissing with
    name := "zero"
    id := "1"
    approachDate := some "2026-10-11"
    missDistance_km := some 0
    relativeVelocity_kph := some 1 }

/-- Record with an ordinary positive miss distance. -/
def astNear : Asteroid :=
  { astMissing with
    name := "near"
    id := "2"
    approachDate := some "2026-10-11"
    missDistance_km := some 5
    relativeVelocity_kph := some 3 }

/-- A NEO with one hazardous close approach. -/
def neoSample : Neo :=
  { name := "2026 AB", id := "3542519"
    estimated_diameter_min := 1, estimated_diameter_max := 2
    is_potentially_hazardous_asteroid := true
    close_approach_data :=
      [{ close_approach_date := "2026-10-11"
         miss_distance_kilometers := 5, relative_velocity_kph := 3 }] }

/-- A feed whose element_count disagrees with the number of objects it
actually carries (one object, element_count 7). -/
def feedMismatch : NeoFeed :=
  { element_count := 7, near_earth_objects := [("2026-10-11", [neoSample])] }

def taskApod : FetchTask :=
  { name := "apod", resource := "https://api.nasa.gov/planetary/apod"
    timeoutMs := 30000, required := true }

def taskAstros : FetchTask :=
  { name := "astros", resource := "http://api.open-notify.org/astros.json"
    timeoutMs := 30000, required := true }

def taskIss : FetchTask :=
  { name := "iss", resource := "http://api.open-notify.org/iss-now.json"
    timeoutMs := 15000, required := false }

/-- A task clashing with taskApod on the name. -/
def taskDup : FetchTask := { taskApod with resource := "other" }

/-- A fetcher double on which every call resolves quickly. -/
def fetchOk : Fetcher := fun _ => FetchBehavior.resolves 10 (FetchResult.ok (JsonValue.str "data"))

/-- A fetcher double on which the ISS call hangs and the rest resolve. -/
def fetchIssDown : Fetcher := fun r =>
  if r = taskIss.resource then FetchBehavior.never
  else FetchBehavior.resolves 10 (FetchResult.ok (JsonValue.str "data"))

/-- A fetcher double on which every call fails with a network error. -/
def fetchNetErr : Fetcher := fun _ =>
  FetchBehavior.resolves 5 (FetchResult.err ErrorKind.NetworkError "API error: 500")

/-! ### Helper lemmas -/

theorem getLast?_mem_list {α : Type} : ∀ {l : List α} {b : α}, l.getLast? = some b → b ∈ l
  | [], _, h => by simp at h
  | [x], b, h => by
      have hx : x = b := by simpa using h
      simp [hx]
  | _ :: y :: rest, b, h => by
      rw [List.getLast?_cons_cons] at h
      exact List.mem_cons_of_mem _ (getLast?_mem_list h)

theorem pairwise_last_dominates {α : Type} {R : α → α → Prop} :
    ∀ {l : List α}, l.Pairwise R → ∀ {a : α}, a ∈ l →
      ∃ b, l.getLast? = some b ∧ (R a b ∨ a = b)
  | [], _, a, ha => absurd ha (List.not_mem_nil a)
  | [x], _, a, ha => by
      rw [List.mem_singleton] at ha
      exact ⟨x, by simp, Or.inr ha⟩
  | x :: y :: rest, hp, a, ha => by
      have hrel := (List.pairwise_cons.mp hp).1
      have hp' := (List.pairwise_cons.mp hp).2
      rcases List.mem_cons.mp ha with h | h
      · obtain ⟨b, hb, _⟩ := pairwise_last_dominates hp' (List.mem_cons_self y rest)
        subst h
        exact ⟨b, by rw [List.getLast?_cons_cons]; exact hb,
          Or.inl (hrel b (getLast?_mem_list hb))⟩
      · obtain ⟨b, hb, hab⟩ := pairwise_last_dominates hp' h
        exact ⟨b, by rw [List.getLast?_cons_cons]; exact hb, hab⟩

/-- In the sorted list, a record whose key coerces to Infinity, while
every other record keys strictly below Infinity, ends up last. -/
theorem asteroidsSort_top_getLast (l : List Asteroid) (r : Asteroid) (hr : r ∈ l)
    (htop : sortKey r = SortKey.inf)
    (hothers : ∀ s ∈ l, s ≠ r → sortKey s ≠ SortKey.inf) :
    (asteroidsSort l).getLast? = some r := by
  have hmem : r ∈ asteroidsSort l := by
    unfold asteroidsSort
    exact (List.mem_insertionSort astBefore).mpr hr
  have hsorted : (asteroidsSort l).Pairwise astBefore :=
    List.sorted_insertionSort astBefore l
  obtain ⟨b, hb, hab⟩ := pairwise_last_dominates hsorted hmem
  rcases hab with hR | rfl
  · have hbl : b ∈ l := by
      have hbs := getLast?_mem_list hb
      unfold asteroidsSort at hbs
      exact (List.mem_insertionSort astBefore).mp hbs
    by_cases hbr : b = r
    · rw [hbr] at hb; exact hb
    · exfalso
      have hbtop : sortKey b = SortKey.inf := by
        unfold astBefore at hR
        rw [htop] at hR
        cases hsb : sortKey b with
        | fin q => rw [hsb] at hR; simp [keyLE] at hR
        | inf => rfl
      exact hothers b hbl hbr hbtop
  · exact hb

/-- A record with a present, nonzero miss distance does not coerce to
Infinity. -/
theorem sortKey_ne_inf_of_present_nonzero (s : Asteroid)
    (h1 : s.missDistance_km ≠ none) (h2 : s.missDistance_km ≠ some 0) :
    sortKey s ≠ SortKey.inf := by
  cases hq : s.missDistance_km with
  | none => exact absurd hq h1
  | some q =>
      have hq0 : q ≠ 0 := fun h => h2 (h ▸ hq)
      simp [sortKey, hq, hq0]

/-- The asteroids handler output, with the let bindings of the source
spelled out. -/
theorem asteroidsHandler_eq (feed : NeoFeed) :
    asteroidsHandler feed =
      { totalCount := feed.element_count
        hazardousCount := ((asteroidsSort (flattenNeos feed)).filter
          (fun a => a.isPotentiallyHazardous)).length
        closestApproach := (asteroidsSort (flattenNeos feed)).head?
        asteroids := (asteroidsSort (flattenNeos feed)).take 20 } := rfl

/-! ### Claims C6, C9, C10: the asteroids entrypoint -/

/-- C6 (amended): in the asteroids sort, a record whose miss-distance
field is absent is placed last, regardless of its input position, whenever
every other record has a present and nonzero miss distance; because a
present-but-zero miss distance coerces to Infinity as well, a record with
an absent field need not be last when a zero-distance record is also in
the list. -/
theorem missing_distance_sorts_last (l : List Asteroid) (r : Asteroid) (hr : r ∈ l)
    (hmiss : r.missDistance_km = none)
    (hothers : ∀ s ∈ l, s ≠ r →
      s.missDistance_km ≠ none ∧ s.missDistance_km ≠ some 0) :
    (asteroidsSort l).getLast? = some r := by
  apply asteroidsSort_top_getLast l r hr
  · simp [sortKey, hmiss]
  · intro s hs hne
    exact sortKey_ne_inf_of_present_nonzero s (hothers s hs hne).1 (hothers s hs hne).2

/-- Witness for C6 (amended): the missing-distance record sorts last in a
concrete two-record list. -/
theorem missing_distance_sorts_last_witness :
    astMissing.missDistance_km = none ∧
    (asteroidsSort [astNear, astMissing]).getLast? = some astMissing :=
  ⟨by decide,
    missing_distance_sorts_last [astNear, astMissing] astMissing (by decide)
      (by decide) (by decide)⟩

/-- C6 counterexample: a record with an absent miss distance is NOT always
placed last: against a record whose miss distance is present but zero, the
comparator returns NaN (both keys coerce to Infinity), the stable sort
keeps the input order, and the missing record stays first. -/
theorem missing_distance_not_last_counterexample :
    astMissing.missDistance_km = none ∧
    astZero.missDistance_km = some 0 ∧
    asteroidsSort [astMissing, astZero] = [astMissing, astZero] ∧
    (asteroidsSort [astMissing, astZero]).getLast? ≠ some astMissing := by
  refine ⟨by decide, by decide, by decide, by decide⟩

/-- C9: a record whose miss distance is present but zero is coerced to
Infinity by the comparator, exactly like an absent one, so it is placed
last (not first) whenever every other record has a present nonzero miss
distance. -/
theorem zero_distance_treated_as_missing (l : List Asteroid) (r : Asteroid) (hr : r ∈ l)
    (hzero : r.missDistance_km = some 0)
    (hothers : ∀ s ∈ l, s ≠ r →
      s.missDistance_km ≠ none ∧ s.missDistance_km ≠ some 0) :
    sortKey r = SortKey.inf ∧
    sortKey r = sortKey { r with missDistance_km := none } ∧
    (asteroidsSort l).getLast? = some r := by
  have hk : sortKey r = SortKey.inf := by simp [sortKey, hzero]
  refine ⟨hk, by simp [sortKey, hzero], ?_⟩
  apply asteroidsSort_top_getLast l r hr hk
  intro s hs hne
  exact sortKey_ne_inf_of_present_nonzero s (hothers s hs hne).1 (hothers s hs hne).2

/-- Witness for C9: the zero-distance record sorts after a record that is
5 km away. -/
theorem zero_distance_treated_as_missing_witness :
    astZero.missDistance_km = some 0 ∧
    sortKey astZero = SortKey.inf ∧
    (asteroidsSort [astZero, astNear]).getLast? = some astZero := by
  refine ⟨by decide, ?_, ?_⟩
  · exact (zero_distance_treated_as_missing [astZero, astNear] astZero (by decide)
      (by decide) (by decide)).1
  · exact (zero_distance_treated_as_missing [astZero, astNear] astZero (by decide)
      (by decide) (by decide)).2.2

/-- C10 (amended): the returned asteroids list is the first 20 elements of
the full sorted list (hence at most 20 entries); hazardousCount is
computed over all fetched asteroids including those beyond the first 20;
closestApproach is the head of the full sorted list, null exactly when no
asteroid was fetched; but totalCount is the element_count field reported
by the feed, not a count computed from the fetched asteroids. -/
theorem asteroids_output_shape (feed : NeoFeed) :
    (asteroidsHandler feed).totalCount = feed.element_count ∧
    (asteroidsHandler feed).hazardousCount =
      ((flattenNeos feed).filter (fun a => a.isPotentiallyHazardous)).length ∧
    (asteroidsHandler feed).asteroids = (asteroidsSort (flattenNeos feed)).take 20 ∧
    (asteroidsHandler feed).asteroids.length ≤ 20 ∧
    (asteroidsHandler feed).closestApproach = (asteroidsSort (flattenNeos feed)).head? ∧
    ((asteroidsHandler feed).closestApproach = none ↔ flattenNeos feed = []) := by
  have hperm : (asteroidsSort (flattenNeos feed)).Perm (flattenNeos feed) :=
    List.perm_insertionSort astBefore (flattenNeos feed)
  rw [asteroidsHandler_eq]
  refine ⟨rfl, ?_, rfl, ?_, rfl, ?_⟩
  · exact (hperm.filter (fun a => a.isPotentiallyHazardous)).length_eq
  · simp [List.length_take]
  · constructor
    · intro h
      have h0 : asteroidsSort (flattenNeos feed) = [] := List.head?_eq_none_iff.mp h
      rw [h0] at hperm
      exact hperm.symm.eq_nil
    · intro h
      have h0 : asteroidsSort (flattenNeos feed) = [] := by
        rw [h]; rfl
      rw [h0]; rfl

/-- C10 counterexample: totalCount is taken from the element_count field
of the feed, not computed from the fetched asteroids: a feed carrying one
object but reporting element_count 7 yields totalCount 7. -/
theorem totalCount_from_field_counterexample :
    (asteroidsHandler feedMismatch).totalCount = 7 ∧
    (flattenNeos feedMismatch).length = 1 ∧
    (asteroidsHandler feedMismatch).totalCount ≠ (flattenNeos feedMismatch).length := by
  refine ⟨rfl, rfl, by decide⟩

/-! ### Claim C7: the report entrypoint -/

/-- C7: in the report handler only the ISS fetch failure is tolerated:
the report is still produced with the `unavailable` placeholder as the ISS
location, while a failure of the APOD fetch or of the astronauts fetch
rejects the whole handler. -/
theorem report_iss_nonfatal (apod : ApodData) (astros : AstrosData) (e : String)
    (neoOk : Option NeoFeed) :
    (∃ out, reportHandler (Except.ok apod) (Except.ok astros) (Except.error e)
        (neoOk.map Except.ok) = Except.ok out ∧
      out.issLocation = IssLocation.unavailable) ∧
    (∀ ea astrosR issR neoR,
      reportHandler (Except.error ea) astrosR issR neoR = Except.error ea) ∧
    (∀ eb issR neoR,
      reportHandler (Except.ok apod) (Except.error eb) issR neoR = Except.error eb) := by
  refine ⟨?_, ?_, ?_⟩
  · cases neoOk with
    | none => exact ⟨_, rfl, rfl⟩
    | some f => exact ⟨_, rfl, rfl⟩
  · intro ea astrosR issR neoR
    rfl
  · intro eb issR neoR
    rfl

/-! ### Aggregator helper lemmas -/

theorem runTasks_eq (fetcher : Fetcher) : ∀ tasks : List FetchTask,
    runTasks fetcher tasks =
      (tasks.map (fun t => (t, runTask fetcher t)), tasks.map (fun t => t.resource))
  | [] => rfl
  | t :: rest => by
      simp [runTasks, runTasks_eq fetcher rest]

theorem validate_parts (tasks : List FetchTask) (h : validateTasks tasks = none) :
    (tasks.map (fun t => t.name)).Nodup ∧ ∀ t ∈ tasks, 0 < t.timeoutMs := by
  unfold validateTasks at h
  by_cases h1 : (tasks.map (fun t => t.name)).Nodup
  · rw [if_neg (not_not_intro h1)] at h
    by_cases h2 : ∀ t ∈ tasks, 0 < t.timeoutMs
    · exact ⟨h1, h2⟩
    · rw [if_pos h2] at h
      exact absurd h (by simp)
  · rw [if_pos h1] at h
    exact absurd h (by simp)

/-- With a valid task set, run returns the canonical result and issues one
call per task. -/
theorem run_ok (fetcher : Fetcher) (tasks : List FetchTask)
    (h : validateTasks tasks = none) :
    run fetcher tasks =
      (Except.ok
        { outcomes := outcomesOf fetcher tasks
          hasFatalFailure := fatalOf fetcher tasks },
       tasks.map (fun t => t.resource)) := by
  unfold run
  rw [h, runTasks_eq]
  simp only [outcomesOf, fatalOf, hasFatal, List.map_map, Function.comp_def]
  have hany : ∀ l : List FetchTask, ((l.map (fun t => (t, runTask fetcher t))).any
      (fun p => p.1.required && p.2.isFailure))
      = l.any (fun t => t.required && (runTask fetcher t).isFailure) := by
    intro l
    induction l with
    | nil => rfl
    | cons a as ih => simp only [List.map_cons, List.any_cons, ih]
  rw [hany tasks]

theorem outcomesOf_keys (fetcher : Fetcher) (tasks : List FetchTask) :
    (outcomesOf fetcher tasks).map Prod.fst = tasks.map (fun t => t.name) := by
  simp [outcomesOf, List.map_map, Function.comp_def]

/-- With unique names, the outcome looked up for a member task is the
outcome of that task. -/
theorem findOutcome_map (f : FetchTask → TaskOutcome) :
    ∀ (tasks : List FetchTask), (tasks.map (fun t => t.name)).Nodup →
      ∀ t ∈ tasks, findOutcome t.name (tasks.map (fun s => (s.name, f s))) = some (f t)
  | [], _, t, ht => absurd ht (List.not_mem_nil t)
  | s :: rest, hnd, t, ht => by
      simp only [List.map_cons, List.nodup_cons] at hnd
      rcases List.mem_cons.mp ht with rfl | hmem
      · simp [findOutcome]
      · have hne : s.name ≠ t.name := by
          intro hEq
          apply hnd.1
          rw [hEq]
          exact List.mem_map_of_mem (fun x => x.name) hmem
        rw [show (s :: rest).map (fun x => (x.name, f x)) =
          (s.name, f s) :: rest.map (fun x => (x.name, f x)) from rfl]
        unfold findOutcome
        rw [if_neg hne]
        exact findOutcome_map f rest hnd.2 t hmem

theorem findOutcome_outcomesOf (fetcher : Fetcher) (tasks : List FetchTask)
    (hnd : (tasks.map (fun t => t.name)).Nodup) (t : FetchTask) (ht : t ∈ tasks) :
    findOutcome t.name (outcomesOf fetcher tasks) = some (runTask fetcher t) :=
  findOutcome_map (fun s => runTask fetcher s) tasks hnd t ht

/-- Looking up a name in the outcome mapping is invariant under
permutation, provided the keys are unique. -/
theorem findOutcome_perm {l₁ l₂ : List (String × TaskOutcome)} (hperm : l₁.Perm l₂)
    (n : String) : (l₁.map Prod.fst).Nodup → findOutcome n l₁ = findOutcome n l₂ := by
  induction hperm with
  | nil => intro _; rfl
  | cons x h ih =>
      intro hnd
      obtain ⟨k, v⟩ := x
      simp only [List.map_cons, List.nodup_cons] at hnd
      unfold findOutcome
      by_cases hk : k = n
      · rw [if_pos hk, if_pos hk]
      · rw [if_neg hk, if_neg hk]
        exact ih hnd.2
  | swap x y l =>
      intro hnd
      obtain ⟨k₁, v₁⟩ := x
      obtain ⟨k₂, v₂⟩ := y
      simp only [List.map_cons, List.nodup_cons, List.mem_cons] at hnd
      have hne : k₂ ≠ k₁ := fun hEq => hnd.1 (Or.inl hEq)
      unfold findOutcome
      by_cases h1 : k₂ = n <;> by_cases h2 : k₁ = n
      · exact absurd (h1.trans h2.symm) hne
      · rw [if_pos h1, if_neg h2]
        unfold findOutcome
        rw [if_pos h1]
      · rw [if_neg h1, if_pos h2]
        unfold findOutcome
        rw [if_pos h2]
      · rw [if_neg h1, if_neg h2]
        unfold findOutcome
        rw [if_neg h1, if_neg h2]
  | trans h12 h23 ih12 ih23 =>
      intro hnd
      exact (ih12 hnd).trans (ih23 (((h12.map Prod.fst).nodup_iff).mp hnd))

theorem filterMap_index_take {α β : Type} (l : List α) (f : α → β) :
    ∀ n : Nat, (List.range n).filterMap (fun i => l[i]?.map f) = (l.take n).map f
  | 0 => by simp
  | n + 1 => by
      rw [List.range_succ, List.filterMap_append, filterMap_index_take l f n,
        List.take_succ]
      cases h : l[n]? with
      | none => simp [h]
      | some a => simp [h]

/-- Settling in index order produces exactly the canonical mapping. -/
theorem settleInOrder_range (fetcher : Fetcher) (tasks : List FetchTask) :
    settleInOrder fetcher tasks (List.range tasks.length) = outcomesOf fetcher tasks := by
  unfold settleInOrder outcomesOf
  rw [filterMap_index_take tasks (fun t => (t.name, runTask fetcher t)) tasks.length,
    List.take_length]

/-- A call that does not resolve within the task deadline is recorded as
the TimeoutError failure. -/
theorem runTask_timeout (fetcher : Fetcher) (t : FetchTask)
    (h : resolvesWithin (fetcher t.resource) t.timeoutMs = false) :
    runTask fetcher t =
      TaskOutcome.Failure ErrorKind.TimeoutError (timeoutMessage t.timeoutMs) := by
  unfold runTask
  cases hb : fetcher t.resource with
  | never => rfl
  | resolves d r =>
      rw [hb] at h
      unfold resolvesWithin at h
      rw [decide_eq_false_iff_not] at h
      dsimp only
      rw [if_neg h]

/-- The fatal flag is the existence of a required task whose own call
fails. -/
theorem fatalOf_iff (fetcher : Fetcher) (tasks : List FetchTask) :
    fatalOf fetcher tasks = true ↔
      ∃ t ∈ tasks, t.required = true ∧ (runTask fetcher t).isFailure = true := by
  simp [fatalOf, List.any_eq_true, Bool.and_eq_true]

/-! ### Claims C1 to C5 and C8: the Aggregator -/

/-- C4: a task set with duplicate names or a non-positive timeout makes
run return ConfigError with an empty call log: the fetcher capability is
never invoked for any task of the set. -/
theorem config_error_before_any_call (fetcher : Fetcher) (tasks : List FetchTask)
    (hbad : ¬ (tasks.map (fun t => t.name)).Nodup ∨ ¬ ∀ t ∈ tasks, 0 < t.timeoutMs) :
    ∃ msg, run fetcher tasks = (Except.error (RunError.ConfigError msg), []) := by
  unfold run validateTasks
  rcases hbad with h | h
  · rw [if_pos h]
    exact ⟨_, rfl⟩
  · by_cases h1 : ¬ (tasks.map (fun t => t.name)).Nodup
    · rw [if_pos h1]
      exact ⟨_, rfl⟩
    · rw [if_neg h1, if_pos h]
      exact ⟨_, rfl⟩

/-- Witness for C4: two tasks sharing the name apod are rejected before
any call. -/
theorem config_error_before_any_call_witness :
    ∃ msg, run fetchOk [taskApod, taskDup] =
      (Except.error (RunError.ConfigError msg), []) :=
  config_error_before_any_call fetchOk [taskApod, taskDup] (Or.inl (by decide))

/-- C2: with a valid task set, run returns an AggregationResult (never an
error), issues one call per task, records exactly one outcome entry per
task in task order, and records any per-task failure as a Failure outcome
under that task name. -/
theorem errors_captured_all_settle (fetcher : Fetcher) (tasks : List FetchTask)
    (hvalid : validateTasks tasks = none) :
    ∃ res : AggregationResult,
      run fetcher tasks = (Except.ok res, tasks.map (fun t => t.resource)) ∧
      res.outcomes.map Prod.fst = tasks.map (fun t => t.name) ∧
      ∀ t ∈ tasks, ∀ k m, runTask fetcher t = TaskOutcome.Failure k m →
        findOutcome t.name res.outcomes = some (TaskOutcome.Failure k m) := by
  refine ⟨_, run_ok fetcher tasks hvalid, ?_, ?_⟩
  · exact outcomesOf_keys fetcher tasks
  · intro t ht k m hfail
    show findOutcome t.name (outcomesOf fetcher tasks) = some (TaskOutcome.Failure k m)
    rw [findOutcome_outcomesOf fetcher tasks (validate_parts tasks hvalid).1 t ht, hfail]

/-- Witness for C2: both tasks settle although every call fails. -/
theorem errors_captured_all_settle_witness :
    validateTasks [taskApod, taskIss] = none ∧
    ∃ res : AggregationResult,
      run fetchNetErr [taskApod, taskIss] =
        (Except.ok res, [taskApod, taskIss].map (fun t => t.resource)) ∧
      res.outcomes.map Prod.fst = [taskApod, taskIss].map (fun t => t.name) ∧
      ∀ t ∈ [taskApod, taskIss], ∀ k m,
        runTask fetchNetErr t = TaskOutcome.Failure k m →
          findOutcome t.name res.outcomes = some (TaskOutcome.Failure k m) :=
  ⟨by decide, errors_captured_all_settle fetchNetErr [taskApod, taskIss] (by decide)⟩

/-- C3: hasFatalFailure is true iff at least one required task has a
Failure outcome recorded under its name; it is false when the failing
tasks are all non-required. -/
theorem hasFatalFailure_iff (fetcher : Fetcher) (tasks : List FetchTask)
    (hvalid : validateTasks tasks = none) :
    ∃ res : AggregationResult,
      (run fetcher tasks).1 = Except.ok res ∧
      (res.hasFatalFailure = true ↔
        ∃ t ∈ tasks, t.required = true ∧
          ∃ k m, findOutcome t.name res.outcomes = some (TaskOutcome.Failure k m)) := by
  refine ⟨_, by rw [run_ok fetcher tasks hvalid], ?_⟩
  show fatalOf fetcher tasks = true ↔
    ∃ t ∈ tasks, t.required = true ∧
      ∃ k m, findOutcome t.name (outcomesOf fetcher tasks) = some (TaskOutcome.Failure k m)
  rw [fatalOf_iff]
  have hnd := (validate_parts tasks hvalid).1
  constructor
  · rintro ⟨t, ht, hreq, hfail⟩
    refine ⟨t, ht, hreq, ?_⟩
    rw [findOutcome_outcomesOf fetcher tasks hnd t ht]
    cases hout : runTask fetcher t with
    | Success v => rw [hout] at hfail; exact absurd hfail (by simp [TaskOutcome.isFailure])
    | Failure k m => exact ⟨k, m, rfl⟩
  · rintro ⟨t, ht, hreq, k, m, hfound⟩
    refine ⟨t, ht, hreq, ?_⟩
    rw [findOutcome_outcomesOf fetcher tasks hnd t ht] at hfound
    rw [Option.some_inj.mp hfound]
    rfl

/-- Witness for C3: a required task failing with a network error makes
hasFatalFailure true. -/
theorem hasFatalFailure_iff_witness :
    validateTasks [taskApod, taskIss] = none ∧
    ∃ res : AggregationResult,
      (run fetchNetErr [taskApod, taskIss]).1 = Except.ok res ∧
      (res.hasFatalFailure = true ↔
        ∃ t ∈ [taskApod, taskIss], t.required = true ∧
          ∃ k m, findOutcome t.name res.outcomes = some (TaskOutcome.Failure k m)) :=
  ⟨by decide, hasFatalFailure_iff fetchNetErr [taskApod, taskIss] (by decide)⟩

/-- C5: a task whose call does not resolve within its timeout (it hangs or
resolves too late) is recorded as Failure TimeoutError with the message
"timed out after Nms", while every other task keeps the outcome its own
behavior determines. -/
theorem timeout_outcome (fetcher : Fetcher) (tasks : List FetchTask) (t : FetchTask)
    (hvalid : validateTasks tasks = none) (ht : t ∈ tasks)
    (htimeout : resolvesWithin (fetcher t.resource) t.timeoutMs = false) :
    ∃ res : AggregationResult,
      (run fetcher tasks).1 = Except.ok res ∧
      findOutcome t.name res.outcomes =
        some (TaskOutcome.Failure ErrorKind.TimeoutError (timeoutMessage t.timeoutMs)) ∧
      ∀ s ∈ tasks, findOutcome s.name res.outcomes = some (runTask fetcher s) := by
  have hnd := (validate_parts tasks hvalid).1
  refine ⟨_, by rw [run_ok fetcher tasks hvalid], ?_, ?_⟩
  · show findOutcome t.name (outcomesOf fetcher tasks) =
      some (TaskOutcome.Failure ErrorKind.TimeoutError (timeoutMessage t.timeoutMs))
    rw [findOutcome_outcomesOf fetcher tasks hnd t ht,
      runTask_timeout fetcher t htimeout]
  · intro s hs
    show findOutcome s.name (outcomesOf fetcher tasks) = some (runTask fetcher s)
    exact findOutcome_outcomesOf fetcher tasks hnd s hs

/-- Witness for C5: the ISS call hangs, the apod task still succeeds. -/
theorem timeout_outcome_witness :
    validateTasks [taskApod, taskIss] = none ∧
    resolvesWithin (fetchIssDown taskIss.resource) taskIss.timeoutMs = false ∧
    ∃ res : AggregationResult,
      (run fetchIssDown [taskApod, taskIss]).1 = Except.ok res ∧
      findOutcome taskIss.name res.outcomes =
        some (TaskOutcome.Failure ErrorKind.TimeoutError
          (timeoutMessage taskIss.timeoutMs)) ∧
      ∀ s ∈ [taskApod, taskIss],
        findOutcome s.name res.outcomes = some (runTask fetchIssDown s) :=
  ⟨by decide, by decide,
    timeout_outcome fetchIssDown [taskApod, taskIss] taskIss (by decide) (by decide)
      (by decide)⟩

/-- C1: the outcome recorded for a task is a function of that task and the
behavior of its own call alone: against two fetchers that agree on the
task resource, the recorded outcome is identical, however the other calls
behave (fail, hang past their own deadlines, or succeed).  In particular
the expiry of another call timeout never changes this task outcome. -/
theorem task_isolation (f g : Fetcher) (tasks : List FetchTask) (t : FetchTask)
    (hvalid : validateTasks tasks = none) (ht : t ∈ tasks)
    (hagree : f t.resource = g t.resource) :
    ∃ res₁ res₂ : AggregationResult,
      (run f tasks).1 = Except.ok res₁ ∧ (run g tasks).1 = Except.ok res₂ ∧
      findOutcome t.name res₁.outcomes = some (runTask f t) ∧
      findOutcome t.name res₂.outcomes = some (runTask g t) ∧
      findOutcome t.name res₁.outcomes = findOutcome t.name res₂.outcomes := by
  have hnd := (validate_parts tasks hvalid).1
  refine ⟨_, _, by rw [run_ok f tasks hvalid], by rw [run_ok g tasks hvalid],
    findOutcome_outcomesOf f tasks hnd t ht, findOutcome_outcomesOf g tasks hnd t ht, ?_⟩
  show findOutcome t.name (outcomesOf f tasks) = findOutcome t.name (outcomesOf g tasks)
  rw [findOutcome_outcomesOf f tasks hnd t ht, findOutcome_outcomesOf g tasks hnd t ht]
  unfold runTask
  rw [hagree]

/-- Witness for C1: hanging the ISS call does not change the apod
outcome. -/
theorem task_isolation_witness :
    fetchOk taskApod.resource = fetchIssDown taskApod.resource ∧
    ∃ res₁ res₂ : AggregationResult,
      (run fetchOk [taskApod, taskIss]).1 = Except.ok res₁ ∧
      (run fetchIssDown [taskApod, taskIss]).1 = Except.ok res₂ ∧
      findOutcome taskApod.name res₁.outcomes = some (runTask fetchOk taskApod) ∧
      findOutcome taskApod.name res₂.outcomes = some (runTask fetchIssDown taskApod) ∧
      findOutcome taskApod.name res₁.outcomes = findOutcome taskApod.name res₂.outcomes :=
  ⟨by decide,
    task_isolation fetchOk fetchIssDown [taskApod, taskIss] taskApod (by decide)
      (by decide) (by decide)⟩

/-- C8: against a deterministic fetcher double, reruns give identical
outcome mappings: whatever completion orders the two runs settle their
tasks in, every name looks up the same outcome. -/
theorem deterministic_outcomes (fetcher : Fetcher) (tasks : List FetchTask)
    (order₁ order₂ : List Nat)
    (hnd : (tasks.map (fun t => t.name)).Nodup)
    (h₁ : order₁.Perm (List.range tasks.length))
    (h₂ : order₂.Perm (List.range tasks.length)) :
    ∀ n, findOutcome n (settleInOrder fetcher tasks order₁) =
      findOutcome n (settleInOrder fetcher tasks order₂) := by
  have key : ∀ order : List Nat, order.Perm (List.range tasks.length) →
      ∀ n, findOutcome n (settleInOrder fetcher tasks order) =
        findOutcome n (outcomesOf fetcher tasks) := by
    intro order hord n
    have hperm : (settleInOrder fetcher tasks order).Perm
        (settleInOrder fetcher tasks (List.range tasks.length)) := by
      unfold settleInOrder
      exact hord.filterMap
        (fun i => tasks[i]?.map (fun (s : FetchTask) => (s.name, runTask fetcher s)))
    rw [settleInOrder_range] at hperm
    apply findOutcome_perm hperm n
    have hkeys : ((outcomesOf fetcher tasks).map Prod.fst).Nodup := by
      rw [outcomesOf_keys]; exact hnd
    exact ((hperm.map Prod.fst).nodup_iff).mpr hkeys
  intro n
  exact (key order₁ h₁ n).trans (key order₂ h₂ n).symm

/-- Witness for C8: two opposite completion orders of a two-task set give
the same looked-up outcome. -/
theorem deterministic_outcomes_witness :
    ([taskApod, taskAstros].map (fun t => t.name)).Nodup ∧
    [(1 : Nat), 0].Perm (List.range [taskApod, taskAstros].length) ∧
    [(0 : Nat), 1].Perm (List.range [taskApod, taskAstros].length) ∧
    findOutcome "apod" (settleInOrder fetchOk [taskApod, taskAstros] [1, 0]) =
      findOutcome "apod" (settleInOrder fetchOk [taskApod, taskAstros] [0, 1]) :=
  ⟨by decide, by decide, by decide,
    deterministic_outcomes fetchOk [taskApod, taskAstros] [1, 0] [0, 1] (by decide)
      (by decide) (by decide) "apod"⟩

end SpaceData
